import Mathlib

/-!
Verification of the screenshot section-detection and image-slicing pipeline.

The code under verification renders a web page, detects visually distinct
sections from DOM geometry (an in-page evaluation), captures one full-page
raster, and slices it into one crop per section.  Two variants of the
`takeScreenshots` function exist in the repository; both are embedded here:

* the variant with drill-down / landmark-fallback / mega-container collapse
  in its detector and a round-based slicer with a degenerate-skip branch
  (embedded as `drill`, `candidatesWithFallback`, `collapseMega`,
  `detectSections`, `makeClip`, `runClips`, `takeScreenshots`, `POST`);
* the `route.js` variant whose slicer floors the section rectangle and
  clamps it against the raster metadata (embedded as `floorClip`,
  `clampClip`, `routeClip`).

Geometry values (`getBoundingClientRect`, `window.scrollY`) are modelled as
rationals; integer pixel values as `ℤ`.  `Math.round` is `jsRound`
(round half toward positive infinity), `Math.floor` is `Int.floor`.
-/

attribute [local semireducible] Rat.mul Rat.add Rat.sub Rat.inv

/-- Computed style of a DOM element: the four properties the visibility
predicate reads (`display`, `visibility`, `opacity`, `position`), each as the
string returned by `window.getComputedStyle`. -/
structure Style where
  display : String
  visibility : String
  opacity : String
  position : String
deriving DecidableEq

/-- Bounding client rectangle of a DOM element, in viewport coordinates,
as returned by `getBoundingClientRect` (`bottom` is derived: `top + height`). -/
structure Rect where
  top : ℚ
  left : ℚ
  width : ℚ
  height : ℚ
deriving DecidableEq

/-- Rect.bottom is `top + height`, as for a DOMRect. -/
def Rect.bottom (r : Rect) : ℚ := r.top + r.height

/-- A DOM element: tag name, computed style, bounding rectangle, and the
ordered list of child elements.  The DOM is a finite tree; the detector's
snapshot is immutable, so every read of `getBoundingClientRect` on the same
element returns the same rectangle. -/
inductive Elem where
  | node (tag : String) (style : Style) (rect : Rect) (children : List Elem)

/-- Tag name accessor. -/
def Elem.tag : Elem → String
  | .node t _ _ _ => t

/-- Computed style accessor. -/
def Elem.style : Elem → Style
  | .node _ s _ _ => s

/-- Bounding rectangle accessor. -/
def Elem.rect : Elem → Rect
  | .node _ _ r _ => r

/-- Child list accessor (`container.children`). -/
def Elem.children : Elem → List Elem
  | .node _ _ _ cs => cs

/-- Structural equality test on DOM elements, used to embed JavaScript
reference comparison `el !== megaContainer` (in the model, elements are
identified by their structure). -/
def beqE : Elem → Elem → Bool
  | .node t1 s1 r1 c1, .node t2 s2 r2 c2 =>
    t1 == t2 && s1 == s2 && r1 == r2 && goB c1 c2
where
  goB : List Elem → List Elem → Bool
  | [], [] => true
  | a :: as, b :: bs => beqE a b && goB as bs
  | _, _ => false

/-- Size of a DOM tree (number of elements), used as the fuel bound for the
drill-down loop: the loop descends into a strict subtree at every iteration,
so it performs fewer than `elemSize` iterations. -/
def elemSize : Elem → ℕ
  | .node _ _ _ cs => 1 + goS cs
where
  goS : List Elem → ℕ
  | [] => 0
  | c :: cs => elemSize c + goS cs

/-- Visibility predicate `isPotentialSection` of the drill-down variant:
a node qualifies iff `display` is not `none`, `visibility` is not `hidden`,
`opacity` is not `"0"`, `position` is not `fixed`, and its bounding rect has
`height > 50` and `width > 100`. -/
def isPotentialSection (el : Elem) : Bool :=
  if el.style.display == "none" || el.style.visibility == "hidden" ||
      el.style.opacity == "0" || el.style.position == "fixed" then
    false
  else
    decide (el.rect.height > 50) && decide (el.rect.width > 100)

/-- The `getSections` helper: the qualifying children of a container,
`Array.from(container.children).filter(isPotentialSection)`. -/
def getSections (container : Elem) : List Elem :=
  container.children.filter isPotentialSection

/-- Fuel-indexed form of the drill-down `while` loop
(`while (candidateElements.length === 1) { container = candidateElements[0];
candidateElements = getSections(container) }`).  One fuel unit is consumed
per loop iteration; each iteration descends into a strict subtree, so any
fuel at least `elemSize` of the container computes the loop's fixpoint
(`drillFuel_congr` below). -/
def drillFuel : ℕ → Elem → List Elem
  | 0, e => getSections e
  | f + 1, e =>
    match getSections e with
    | [c] => drillFuel f c
    | cs => cs

/-- The drill-down loop: starting from a container, repeatedly replace the
container by its single qualifying child while exactly one candidate is
found, returning the candidate list at the first level whose candidate count
differs from one. -/
def drill (e : Elem) : List Elem :=
  drillFuel (elemSize e) e

/-- Landmark fallback: if after drilling from the body the candidate count is
at most 2 and a `<main>` element exists (`mainEl` models
`document.querySelector('main')`), drill from `<main>` and keep that result
exactly when it is strictly larger. -/
def candidatesWithFallback (body : Elem) (mainEl : Option Elem) : List Elem :=
  let candidateElements := drill body
  match mainEl with
  | some mainContainer =>
    if candidateElements.length ≤ 2 then
      let mainCandidates := drill mainContainer
      if mainCandidates.length > candidateElements.length then mainCandidates
      else candidateElements
    else candidateElements
  | none => candidateElements

/-- Sum of the candidates' bounding-rect heights
(`candidateElements.reduce((sum, el) => sum + el.getBoundingClientRect().height, 0)`). -/
def totalHeight (l : List Elem) : ℚ :=
  (l.map (fun el => el.rect.height)).sum

/-- Mega-container collapse: find the first candidate whose height exceeds
80% of the summed heights; if found, the result is its qualifying children
followed by the remaining peer candidates; otherwise the candidates are kept
as they are. -/
def collapseMega (candidateElements : List Elem) : List Elem :=
  match candidateElements.find?
      (fun el => decide (el.rect.height > totalHeight candidateElements * (8 / 10))) with
  | some megaContainer =>
    getSections megaContainer ++
      candidateElements.filter (fun el => !(beqE el megaContainer))
  | none => candidateElements

/-- Stable insertion of an element into a list ordered by `rect.top`: the new
element is placed after every element whose top is less than or equal to its
own, as a stable comparator sort does. -/
def insertByTop (a : Elem) : List Elem → List Elem
  | [] => [a]
  | b :: bs =>
    if b.rect.top ≤ a.rect.top then b :: insertByTop a bs
    else a :: b :: bs

/-- The final `finalElements.sort((a, b) => a.getBoundingClientRect().top -
b.getBoundingClientRect().top)`: a stable sort ascending by `rect.top`,
modelled as left-to-right stable insertion. -/
def sortByTop (l : List Elem) : List Elem :=
  l.foldl (fun acc a => insertByTop a acc) []

/-- Final filter and ordering of the detector: drop candidates with
`height ≤ 50`, then sort ascending by `rect.top`. -/
def finalElements (l : List Elem) : List Elem :=
  sortByTop (l.filter (fun el => decide (el.rect.height > 50)))

/-- Ordered element list produced by the in-page detector: drill-down from
the body, landmark fallback, mega-container collapse, final filter and sort. -/
def detectElems (body : Elem) (mainEl : Option Elem) : List Elem :=
  finalElements (collapseMega (candidatesWithFallback body mainEl))

/-- One detected section as returned to the slicer:
`y_start = rect.top + window.scrollY`, `y_end = rect.bottom + window.scrollY`. -/
structure SectionOut where
  y_start : ℚ
  y_end : ℚ
deriving DecidableEq

/-- The full detector: the ordered element list mapped to absolute document
coordinates using the current scroll offset. -/
def detectSections (body : Elem) (mainEl : Option Elem) (scrollY : ℚ) : List SectionOut :=
  (detectElems body mainEl).map
    (fun el => ⟨el.rect.top + scrollY, el.rect.bottom + scrollY⟩)

/-- JavaScript `Math.round`: round half toward positive infinity. -/
def jsRound (q : ℚ) : ℤ := ⌊q + 1 / 2⌋

/-- A pixel rectangle handed to the raster library's `extract`. -/
structure Clip where
  left : ℤ
  top : ℤ
  width : ℤ
  height : ℤ
deriving DecidableEq

/-- The clip built by the drill-down variant's slicer for one section:
`{ left: 0, top: Math.round(section.y_start), width: 1280,
height: Math.round(section.y_end - section.y_start) }`. -/
def makeClip (s : SectionOut) : Clip :=
  ⟨0, jsRound s.y_start, 1280, jsRound (s.y_end - s.y_start)⟩

/-- Raster-library acceptance test for `extract(clip)` on a raster of pixel
dimensions `W × H`: the clip must be a positive-size rectangle lying entirely
inside the raster, otherwise `extract` raises an error. -/
def extractOk (W H : ℤ) (c : Clip) : Bool :=
  decide (0 ≤ c.left) && decide (0 ≤ c.top) &&
  decide (0 < c.width) && decide (0 < c.height) &&
  decide (c.left + c.width ≤ W) && decide (c.top + c.height ≤ H)

/-- The per-section loop of the slicer over a raster of dimensions `W × H`:
a clip with non-positive height or width is skipped (`continue`) and the loop
goes on; otherwise the clip is extracted and persisted, and a failing
extraction aborts the whole run with an error.  Returns the list of crops
actually persisted, in order. -/
def runClips (W H : ℤ) : List Clip → Except String (List Clip)
  | [] => Except.ok []
  | c :: rest =>
    if c.height ≤ 0 ∨ c.width ≤ 0 then runClips W H rest
    else if extractOk W H c then Except.map (fun l => c :: l) (runClips W H rest)
    else Except.error "bad extract area"

/-- The slicing stage of `takeScreenshots` (drill-down variant), given the
detected sections and the master raster's dimensions: with zero sections the
function returns 0 before capturing anything; otherwise each section's clip
is processed in order and the function returns `sections.length` together
with the crops persisted. -/
def takeScreenshots (W H : ℤ) (sections : List SectionOut) :
    Except String (List Clip × ℕ) :=
  if sections.length = 0 then Except.ok ([], 0)
  else Except.map (fun crops => (crops, sections.length))
    (runClips W H (sections.map makeClip))

/-- HTTP response of the `POST` handler: status code, the 1-based crop
references on success, the error message on failure. -/
structure ApiResponse where
  status : ℕ
  screenshots : Option (List ℕ)
  error : Option String
deriving DecidableEq

/-- The `POST` handler after a successful navigation: on success it returns
status 200 with one reference per reported screenshot
(`Array.from({ length: numScreenshots }, (_, i) => ...section-${i + 1}.png`,
modelled as the 1-based indices); any thrown error yields status 500. -/
def POST (W H : ℤ) (sections : List SectionOut) : ApiResponse :=
  match takeScreenshots W H sections with
  | Except.ok (_, numScreenshots) =>
    ⟨200, some ((List.range numScreenshots).map (fun i => i + 1)), none⟩
  | Except.error e => ⟨500, none, some e⟩

/-- Section rectangle of the `route.js` variant's detector:
`{ x: rect.left, y: rect.top + scrollY, width: rect.width, height: rect.height }`. -/
structure SectionBox where
  x : ℚ
  y : ℚ
  width : ℚ
  height : ℚ
deriving DecidableEq

/-- The `route.js` slicer's integer clip before bounds correction:
`Math.floor` of each of the four coordinates. -/
def floorClip (s : SectionBox) : Clip :=
  ⟨⌊s.x⌋, ⌊s.y⌋, ⌊s.width⌋, ⌊s.height⌋⟩

/-- The `route.js` slicer's bounds correction, in the source's order: first
shrink `width` if `left + width` overflows the raster width, then shrink
`height` if `top + height` overflows the raster height, then raise a negative
`left` to 0, then raise a negative `top` to 0. -/
def clampClip (W H : ℤ) (c0 : Clip) : Clip :=
  let c1 := if c0.left + c0.width > W then Clip.mk c0.left c0.top (W - c0.left) c0.height else c0
  let c2 := if c1.top + c1.height > H then Clip.mk c1.left c1.top c1.width (H - c1.top) else c1
  let c3 := if c2.left < 0 then Clip.mk 0 c2.top c2.width c2.height else c2
  if c3.top < 0 then Clip.mk c3.left 0 c3.width c3.height else c3

/-- The full clip computation of the `route.js` slicer: floor all
coordinates, then apply the bounds correction. -/
def routeClip (W H : ℤ) (s : SectionBox) : Clip :=
  clampClip W H (floorClip s)

/-- Fuel-indexed scroll loop: each timer tick reads the live
`document.body.scrollHeight` (here `scrollHeightAt n` for tick `n`), scrolls
by the fixed `distance = 200`, accumulates it, and stops as soon as the
accumulated distance reaches the height just read.  Returns the final
accumulated distance, or `none` if the fuel runs out first. -/
def scrollLoop (scrollHeightAt : ℕ → ℕ) : ℕ → ℕ → ℕ → Option ℕ
  | 0, _, _ => none
  | f + 1, n, acc =>
    let scrollHeight := scrollHeightAt n
    let acc2 := acc + 200
    if scrollHeight ≤ acc2 then some acc2
    else scrollLoop scrollHeightAt f (n + 1) acc2

/-- Style of an ordinary visible, statically positioned element. -/
def visStyle : Style := ⟨"block", "visible", "1", "static"⟩

/-- Demo DOM for the wrapper-drilling scenario: section A. -/
def c5A : Elem := .node "div" visStyle ⟨0, 0, 1280, 100⟩ []

/-- Demo DOM for the wrapper-drilling scenario: section B. -/
def c5B : Elem := .node "div" visStyle ⟨100, 0, 1280, 100⟩ []

/-- Demo DOM for the wrapper-drilling scenario: section C. -/
def c5C : Elem := .node "div" visStyle ⟨200, 0, 1280, 100⟩ []

/-- Demo DOM for the wrapper-drilling scenario: inner wrapper div holding
the three sections. -/
def c5div2 : Elem := .node "div" visStyle ⟨0, 0, 1280, 300⟩ [c5A, c5B, c5C]

/-- Demo DOM for the wrapper-drilling scenario: outer wrapper div. -/
def c5div1 : Elem := .node "div" visStyle ⟨0, 0, 1280, 300⟩ [c5div2]

/-- Demo DOM for the wrapper-drilling scenario:
`body > div > div > [A, B, C]`, every element qualifying. -/
def c5Body : Elem := .node "body" visStyle ⟨0, 0, 1280, 300⟩ [c5div1]

/-- Mega-container scenario: first real section inside the mega-container. -/
def c4M1 : Elem := .node "div" visStyle ⟨0, 0, 1280, 400⟩ []

/-- Mega-container scenario: second real section inside the mega-container. -/
def c4M2 : Elem := .node "div" visStyle ⟨400, 0, 1280, 420⟩ []

/-- Mega-container scenario: the mega-container M of height 820 holding two
qualifying children. -/
def c4M : Elem := .node "div" visStyle ⟨0, 0, 1280, 820⟩ [c4M1, c4M2]

/-- Mega-container scenario: the footer sibling F of height 180. -/
def c4F : Elem := .node "footer" visStyle ⟨820, 0, 1280, 180⟩ []

/-- Landmark-fallback demo: first body-level candidate. -/
def c6X : Elem := .node "div" visStyle ⟨0, 0, 1280, 100⟩ []

/-- Landmark-fallback demo: second body-level candidate. -/
def c6Y : Elem := .node "div" visStyle ⟨100, 0, 1280, 100⟩ []

/-- Landmark-fallback demo: a body with only two candidates. -/
def c6Body : Elem := .node "body" visStyle ⟨0, 0, 1280, 200⟩ [c6X, c6Y]

/-- Landmark-fallback demo: first section inside the main landmark. -/
def c6P : Elem := .node "div" visStyle ⟨0, 0, 1280, 100⟩ []

/-- Landmark-fallback demo: second section inside the main landmark. -/
def c6Q : Elem := .node "div" visStyle ⟨100, 0, 1280, 100⟩ []

/-- Landmark-fallback demo: third section inside the main landmark. -/
def c6R : Elem := .node "div" visStyle ⟨200, 0, 1280, 100⟩ []

/-- Landmark-fallback demo: a main element with three qualifying children. -/
def c6Main : Elem := .node "main" visStyle ⟨0, 0, 1280, 300⟩ [c6P, c6Q, c6R]

/-- Empty-page demo: a body with no children, so the detector finds zero
sections. -/
def c7Body : Elem := .node "body" visStyle ⟨0, 0, 1280, 600⟩ []

/-- Equal-top demo: first of two side-by-side candidates sharing top 0. -/
def c8A : Elem := .node "div" visStyle ⟨0, 0, 200, 100⟩ []

/-- Equal-top demo: second candidate, same top, different left. -/
def c8B : Elem := .node "div" visStyle ⟨0, 300, 200, 100⟩ []

/-- Equal-top demo: a body whose two qualifying children share the same
bounding-rect top. -/
def c8Body : Elem := .node "body" visStyle ⟨0, 0, 1280, 100⟩ [c8A, c8B]

/-- Two-section demo page used to exercise the slicer on detector output. -/
def c10A : Elem := .node "div" visStyle ⟨0, 0, 1280, 100⟩ []

/-- Two-section demo page: the second section. -/
def c10B : Elem := .node "div" visStyle ⟨100, 0, 1280, 100⟩ []

/-- Two-section demo page: the body. -/
def c10Body : Elem := .node "body" visStyle ⟨0, 0, 1280, 200⟩ [c10A, c10B]

/-- Every DOM tree has positive size. -/
theorem elemSize_pos (e : Elem) : 0 < elemSize e := by
  cases e with
  | node t s r cs => simp [elemSize]

/-- A child's tree is strictly smaller than its parent's. -/
theorem elemSize_lt_of_mem_children {c e : Elem} (h : c ∈ e.children) :
    elemSize c < elemSize e := by
  cases e with
  | node t s r cs =>
    simp only [Elem.children] at h
    have hle : elemSize c ≤ elemSize.goS cs := by
      induction cs with
      | nil => cases h
      | cons b bs ih =>
        rcases List.mem_cons.mp h with rfl | hmem
        · simp [elemSize.goS]
        · have := ih hmem
          simp only [elemSize.goS]
          omega
    simp only [elemSize]
    omega

/-- A qualifying child is strictly smaller than its container. -/
theorem elemSize_lt_of_mem_getSections {c e : Elem} (h : c ∈ getSections e) :
    elemSize c < elemSize e :=
  elemSize_lt_of_mem_children (List.mem_of_mem_filter h)

/-- Unfolding the drill loop when no candidate qualifies. -/
theorem drillFuel_nil {e : Elem} (h : getSections e = []) (f : ℕ) :
    drillFuel (f + 1) e = [] := by
  simp [drillFuel, h]

/-- Unfolding the drill loop when exactly one candidate qualifies: descend. -/
theorem drillFuel_singleton {e c : Elem} (h : getSections e = [c]) (f : ℕ) :
    drillFuel (f + 1) e = drillFuel f c := by
  simp [drillFuel, h]

/-- Unfolding the drill loop when at least two candidates qualify: stop. -/
theorem drillFuel_many {e a b : Elem} {l : List Elem}
    (h : getSections e = a :: b :: l) (f : ℕ) :
    drillFuel (f + 1) e = a :: b :: l := by
  simp [drillFuel, h]

/-- Any fuel at least the tree size computes the same drill result: the fuel
is an artifact of the embedding, not of the loop. -/
theorem drillFuel_congr : ∀ (f g : ℕ) (e : Elem), elemSize e ≤ f → elemSize e ≤ g →
    drillFuel f e = drillFuel g e := by
  intro f
  induction f with
  | zero =>
    intro g e hf hg
    exact absurd hf (by have := elemSize_pos e; omega)
  | succ f ih =>
    intro g e hf hg
    obtain ⟨g1, rfl⟩ : ∃ g1, g = g1 + 1 :=
      ⟨g - 1, by have := elemSize_pos e; omega⟩
    rcases hgs : getSections e with _ | ⟨c, _ | ⟨d, rest⟩⟩
    · rw [drillFuel_nil hgs, drillFuel_nil hgs]
    · have hc : elemSize c < elemSize e :=
        elemSize_lt_of_mem_getSections (by rw [hgs]; exact List.mem_singleton_self c)
      rw [drillFuel_singleton hgs, drillFuel_singleton hgs]
      exact ih g1 c (by omega) (by omega)
    · rw [drillFuel_many hgs, drillFuel_many hgs]

/-- The drill loop's defining step: while exactly one candidate qualifies at
the current level, the search container is replaced by that candidate. -/
theorem drill_singleton {container c : Elem} (h : getSections container = [c]) :
    drill container = drill c := by
  unfold drill
  obtain ⟨k, hk⟩ : ∃ k, elemSize container = k + 1 :=
    ⟨elemSize container - 1, by have := elemSize_pos container; omega⟩
  have hc : elemSize c < elemSize container :=
    elemSize_lt_of_mem_getSections (by rw [h]; exact List.mem_singleton_self c)
  rw [hk, drillFuel_singleton h]
  exact drillFuel_congr k (elemSize c) c (by omega) (le_refl _)

/-- Membership in a stable insertion. -/
theorem mem_insertByTop {x a : Elem} :
    ∀ {l : List Elem}, x ∈ insertByTop a l ↔ x = a ∨ x ∈ l := by
  intro l
  induction l with
  | nil => simp [insertByTop]
  | cons b bs ih =>
    by_cases hb : b.rect.top ≤ a.rect.top
    · simp only [insertByTop, if_pos hb, List.mem_cons, ih]
      tauto
    · simp only [insertByTop, if_neg hb, List.mem_cons]

/-- Stable insertion preserves ordering by top. -/
theorem pairwise_insertByTop {a : Elem} :
    ∀ {l : List Elem}, l.Pairwise (fun u v => u.rect.top ≤ v.rect.top) →
      (insertByTop a l).Pairwise (fun u v => u.rect.top ≤ v.rect.top) := by
  intro l
  induction l with
  | nil => simp [insertByTop]
  | cons b bs ih =>
    intro h
    rcases List.pairwise_cons.mp h with ⟨hb, hbs⟩
    by_cases hba : b.rect.top ≤ a.rect.top
    · rw [insertByTop, if_pos hba]
      refine List.pairwise_cons.mpr ⟨?_, ih hbs⟩
      intro x hx
      rcases mem_insertByTop.mp hx with rfl | hx
      · exact hba
      · exact hb x hx
    · rw [insertByTop, if_neg hba]
      have hab : a.rect.top ≤ b.rect.top := le_of_not_le hba
      refine List.pairwise_cons.mpr ⟨?_, h⟩
      intro x hx
      rcases List.mem_cons.mp hx with rfl | hx
      · exact hab
      · exact le_trans hab (hb x hx)

/-- The sort underlying the detector's final ordering is sorted
(non-strictly) by top. -/
theorem pairwise_sortByTop (l : List Elem) :
    (sortByTop l).Pairwise (fun u v => u.rect.top ≤ v.rect.top) := by
  have key : ∀ (l acc : List Elem),
      acc.Pairwise (fun u v => u.rect.top ≤ v.rect.top) →
      (List.foldl (fun acc a => insertByTop a acc) acc l).Pairwise
        (fun u v => u.rect.top ≤ v.rect.top) := by
    intro l
    induction l with
    | nil => intro acc h; exact h
    | cons a as ih =>
      intro acc h
      exact ih (insertByTop a acc) (pairwise_insertByTop h)
  exact key l [] List.Pairwise.nil

/-- Sorting by top neither adds nor removes elements. -/
theorem mem_sortByTop {x : Elem} {l : List Elem} : x ∈ sortByTop l ↔ x ∈ l := by
  have key : ∀ (l acc : List Elem),
      x ∈ List.foldl (fun acc a => insertByTop a acc) acc l ↔ x ∈ acc ∨ x ∈ l := by
    intro l
    induction l with
    | nil => intro acc; simp
    | cons a as ih =>
      intro acc
      rw [List.foldl_cons, ih (insertByTop a acc), mem_insertByTop]
      simp only [List.mem_cons]
      tauto
  rw [sortByTop, key l []]
  simp

/-- Every candidate's height is at most the summed candidate height. -/
theorem le_totalHeight {l : List Elem} {m : Elem}
    (hpos : ∀ x ∈ l, 0 ≤ x.rect.height) (hm : m ∈ l) :
    m.rect.height ≤ totalHeight l := by
  refine List.single_le_sum ?_ _ (List.mem_map_of_mem (fun el => el.rect.height) hm)
  intro y hy
  rcases List.mem_map.mp hy with ⟨z, hz, rfl⟩
  exact hpos z hz

/-- Two distinct candidates together contribute at most the summed height. -/
theorem two_le_totalHeight {l : List Elem} {e m : Elem}
    (hpos : ∀ x ∈ l, 0 ≤ x.rect.height) (he : e ∈ l) (hm : m ∈ l) (hne : e ≠ m) :
    e.rect.height + m.rect.height ≤ totalHeight l := by
  induction l with
  | nil => cases he
  | cons x xs ih =>
    have hposxs : ∀ y ∈ xs, 0 ≤ y.rect.height :=
      fun y hy => hpos y (List.mem_cons_of_mem _ hy)
    have hth : totalHeight (x :: xs) = x.rect.height + totalHeight xs := by
      simp [totalHeight]
    rcases List.mem_cons.mp he with rfl | he2
    · have hm2 : m ∈ xs := by
        rcases List.mem_cons.mp hm with rfl | h
        · exact absurd rfl hne
        · exact h
      have := le_totalHeight hposxs hm2
      rw [hth]
      linarith
    · rcases List.mem_cons.mp hm with rfl | hm2
      · have := le_totalHeight hposxs he2
        rw [hth]
        linarith
      · have := ih hposxs he2 hm2
        have hx0 := hpos x (List.mem_cons_self x xs)
        rw [hth]
        linarith

/-- If a member satisfies the predicate and is the only one that does, then
`find?` returns exactly that member. -/
theorem find_eq_of_unique {α : Type} (p : α → Bool) :
    ∀ (l : List α) (m : α), m ∈ l → p m = true → (∀ e ∈ l, p e = true → e = m) →
      l.find? p = some m := by
  intro l
  induction l with
  | nil => intro m hm _ _; cases hm
  | cons x xs ih =>
    intro m hm hpm huniq
    by_cases hx : p x = true
    · rw [List.find?_cons_of_pos _ hx, huniq x (List.mem_cons_self x xs) hx]
    · rw [List.find?_cons_of_neg _ (by simpa using hx)]
      have hm2 : m ∈ xs := by
        rcases List.mem_cons.mp hm with rfl | h
        · exact absurd hpm hx
        · exact h
      exact ih m hm2 hpm (fun e he hpe => huniq e (List.mem_cons_of_mem _ he) hpe)

/-- Claim C4: for every candidate list whose summed heights is S (here with
positive candidate heights, as holds for every list of qualifying
candidates), if some candidate's height exceeds (8/10) of S, the collapse
step replaces exactly that candidate by its own qualifying children and
keeps every other candidate: the result is the mega-container's qualifying
children followed by all candidates other than the mega-container. -/
theorem C4_mega_collapse (l : List Elem) (m : Elem)
    (hpos : ∀ e ∈ l, 0 < e.rect.height) (hm : m ∈ l)
    (hbig : totalHeight l * (8 / 10) < m.rect.height) :
    collapseMega l = getSections m ++ l.filter (fun el => !(beqE el m)) := by
  have hpos0 : ∀ e ∈ l, 0 ≤ e.rect.height := fun e he => le_of_lt (hpos e he)
  have hS : 0 < totalHeight l := lt_of_lt_of_le (hpos m hm) (le_totalHeight hpos0 hm)
  have hfind : l.find?
      (fun el => decide (el.rect.height > totalHeight l * (8 / 10))) = some m := by
    apply find_eq_of_unique _ l m hm
    · exact decide_eq_true hbig
    · intro e he hpe
      by_contra hne
      have hbige : totalHeight l * (8 / 10) < e.rect.height := of_decide_eq_true hpe
      have h2 := two_le_totalHeight hpos0 he hm hne
      linarith
  unfold collapseMega
  rw [hfind]

/-- Witness for C4 at the specified scenario, candidates `[M, F]` with
heights 820 and 180: the result is the two qualifying children of M followed
by F — three elements, not the original pair `[M, F]`. -/
theorem C4_mega_witness :
    collapseMega [c4M, c4F] =
      getSections c4M ++ [c4M, c4F].filter (fun el => !(beqE el c4M)) ∧
    collapseMega [c4M, c4F] = [c4M1, c4M2, c4F] ∧
    (collapseMega [c4M, c4F]).length ≠ [c4M, c4F].length :=
  ⟨C4_mega_collapse [c4M, c4F] c4M (by decide) (List.mem_cons_self c4M [c4F])
      (by decide),
    rfl, by decide⟩

/-- Claim C5: while exactly one candidate qualifies at the current level the
detector replaces the search container by that single qualifying child, and
on the demo DOM `body > div > div > [A, B, C]` with A, B, C each qualifying
the detector returns exactly `[A, B, C]` in document order. -/
theorem C5_drill_down :
    (∀ (container c : Elem), getSections container = [c] →
      drill container = drill c) ∧
    detectElems c5Body none = [c5A, c5B, c5C] :=
  ⟨fun _ _ h => drill_singleton h, rfl⟩

/-- Witness for C5: the demo body has exactly one qualifying child, the
outer wrapper, and drilling from the body equals drilling from that wrapper. -/
theorem C5_drill_witness :
    getSections c5Body = [c5div1] ∧ drill c5Body = drill c5div1 :=
  ⟨rfl, C5_drill_down.1 c5Body c5div1 rfl⟩

/-- Claim C6: whenever the body-rooted candidate count is at most 2 and a
main landmark exists, the detector drills from the landmark as well and
keeps whichever candidate set is larger, keeping the body-rooted set on a
tie. -/
theorem C6_landmark_fallback (body mainContainer : Elem)
    (hfew : (drill body).length ≤ 2) :
    ((drill body).length < (drill mainContainer).length ∧
      candidatesWithFallback body (some mainContainer) = drill mainContainer) ∨
    ((drill mainContainer).length ≤ (drill body).length ∧
      candidatesWithFallback body (some mainContainer) = drill body) := by
  by_cases hgt : (drill body).length < (drill mainContainer).length
  · left
    refine ⟨hgt, ?_⟩
    unfold candidatesWithFallback
    simp only [if_pos hfew, if_pos hgt]
  · right
    refine ⟨le_of_not_lt hgt, ?_⟩
    unfold candidatesWithFallback
    simp only [if_pos hfew, if_neg hgt]

/-- Witness for C6: a body with two candidates and a main landmark with
three; the fallback keeps the landmark-rooted set. -/
theorem C6_landmark_witness :
    candidatesWithFallback c6Body (some c6Main) = drill c6Main := by
  rcases C6_landmark_fallback c6Body c6Main (by decide) with h | h
  · exact h.2
  · exact absurd h.1 (by decide)

/-- Claim C7: if the detector returns an empty section sequence, the run
terminates successfully with zero crops reported and the handler answers
HTTP 200 with an empty reference list — zero sections is not a failure. -/
theorem C7_zero_sections (body : Elem) (mainEl : Option Elem) (scrollY : ℚ)
    (W H : ℤ) (hzero : detectSections body mainEl scrollY = []) :
    takeScreenshots W H (detectSections body mainEl scrollY) =
      Except.ok ([], 0) ∧
    POST W H (detectSections body mainEl scrollY) = ⟨200, some [], none⟩ := by
  rw [hzero]
  exact ⟨rfl, rfl⟩

/-- Witness for C7 on an empty demo page: the detector finds no sections and
the run ends with zero crops and a 200 response carrying an empty list. -/
theorem C7_zero_witness :
    takeScreenshots 1280 2000 (detectSections c7Body none 0) =
      Except.ok ([], 0) ∧
    POST 1280 2000 (detectSections c7Body none 0) = ⟨200, some [], none⟩ :=
  C7_zero_sections c7Body none 0 1280 2000 rfl

/-- Counterexample to claim C8 as stated: on a page whose two qualifying
candidates share the same bounding-rect top, the detector returns two
sections with identical top offsets, so the returned sequence is not
strictly ordered and top offsets are duplicated. -/
theorem C8_order_counterexample :
    detectSections c8Body none 0 = [⟨0, 100⟩, ⟨0, 100⟩] ∧
    ¬ (((detectSections c8Body none 0).map SectionOut.y_start).Pairwise
        (fun a b => a < b)) :=
  ⟨rfl, by decide⟩

/-- Claim C8 amended: the detector's returned sections are ordered ascending
by absolute top offset non-strictly — the sort comparator admits ties, and
candidates sharing a top offset both remain. -/
theorem C8_sorted_amended (body : Elem) (mainEl : Option Elem) (scrollY : ℚ) :
    ((detectSections body mainEl scrollY).map SectionOut.y_start).Pairwise
      (fun a b => a ≤ b) := by
  have h2 : (detectElems body mainEl).Pairwise
      (fun u v => u.rect.top ≤ v.rect.top) :=
    pairwise_sortByTop
      ((collapseMega (candidatesWithFallback body mainEl)).filter
        (fun el => decide (el.rect.height > 50)))
  unfold detectSections
  rw [List.map_map]
  apply List.pairwise_map.mpr
  exact h2.imp (fun hab => add_le_add_right hab scrollY)

/-- Claim C10: for every section the detector outputs, the slicer's
degenerate-skip branch cannot fire: the clip width is the constant 1280 and
the clip height, the rounding of `y_end - y_start`, is at least 50 because
the final filter only keeps candidates of height above 50. -/
theorem C10_no_degenerate (body : Elem) (mainEl : Option Elem) (scrollY : ℚ)
    (s : SectionOut) (hs : s ∈ detectSections body mainEl scrollY) :
    (makeClip s).width = 1280 ∧ 50 ≤ (makeClip s).height ∧
    ¬ ((makeClip s).height ≤ 0 ∨ (makeClip s).width ≤ 0) := by
  rcases List.mem_map.mp hs with ⟨el, hel, rfl⟩
  have hel2 : el ∈ (collapseMega (candidatesWithFallback body mainEl)).filter
      (fun e => decide (e.rect.height > 50)) := mem_sortByTop.mp hel
  have h50 : el.rect.height > 50 :=
    of_decide_eq_true (List.mem_filter.mp hel2).2
  have hheight :
      (makeClip ⟨el.rect.top + scrollY, el.rect.bottom + scrollY⟩).height =
        ⌊el.rect.height + 1 / 2⌋ := by
    show jsRound (el.rect.bottom + scrollY - (el.rect.top + scrollY)) =
      ⌊el.rect.height + 1 / 2⌋
    unfold jsRound
    exact congrArg Int.floor (by rw [Rect.bottom]; ring)
  have h50i : 50 ≤ (makeClip ⟨el.rect.top + scrollY, el.rect.bottom + scrollY⟩).height := by
    rw [hheight]
    apply Int.le_floor.mpr
    push_cast
    linarith
  refine ⟨rfl, h50i, ?_⟩
  have hw : (makeClip ⟨el.rect.top + scrollY, el.rect.bottom + scrollY⟩).width = 1280 := rfl
  omega

/-- Witness for C10: on a two-section demo page, the first returned section
yields a clip of width 1280 and height at least 50, so it is not skipped. -/
theorem C10_no_degenerate_witness :
    ((⟨0, 100⟩ : SectionOut) ∈ detectSections c10Body none 0) ∧
    ((makeClip ⟨0, 100⟩).width = 1280 ∧ 50 ≤ (makeClip ⟨0, 100⟩).height ∧
      ¬ ((makeClip ⟨0, 100⟩).height ≤ 0 ∨ (makeClip ⟨0, 100⟩).width ≤ 0)) :=
  ⟨by decide, C10_no_degenerate c10Body none 0 ⟨0, 100⟩ (by decide)⟩

/-- Soundness of the scroll loop: whenever it returns, the returned total is
the accumulated distance of some tick `k`, at that tick the height just read
was reached, and at no earlier tick was the height then read reached. -/
theorem scrollLoop_sound (hAt : ℕ → ℕ) :
    ∀ (f n acc total : ℕ), scrollLoop hAt f n acc = some total →
      ∃ k, total = acc + 200 * (k + 1) ∧ hAt (n + k) ≤ total ∧
        ∀ j < k, ¬ (hAt (n + j) ≤ acc + 200 * (j + 1)) := by
  intro f
  induction f with
  | zero =>
    intro n acc total h
    exact absurd h (by simp [scrollLoop])
  | succ f ih =>
    intro n acc total h
    simp only [scrollLoop] at h
    by_cases hstop : hAt n ≤ acc + 200
    · rw [if_pos hstop] at h
      have ht : total = acc + 200 := (Option.some.inj h).symm
      refine ⟨0, by omega, by simpa [ht] using hstop, ?_⟩
      intro j hj
      omega
    · rw [if_neg hstop] at h
      obtain ⟨k, hk1, hk2, hk3⟩ := ih (n + 1) (acc + 200) total h
      refine ⟨k + 1, by omega, ?_, ?_⟩
      · rwa [show n + (k + 1) = n + 1 + k by omega]
      · intro j hj
        cases j with
        | zero => simpa using hstop
        | succ j0 =>
          have hj0 := hk3 j0 (by omega)
          rw [show n + (j0 + 1) = n + 1 + j0 by omega]
          omega

/-- Termination of the scroll loop under sufficient fuel: if some tick within
the fuel budget would observe its height reached, the loop returns. -/
theorem scrollLoop_term (hAt : ℕ → ℕ) :
    ∀ (f n acc : ℕ), (∃ k, k < f ∧ hAt (n + k) ≤ acc + 200 * (k + 1)) →
      ∃ total, scrollLoop hAt f n acc = some total := by
  intro f
  induction f with
  | zero =>
    intro n acc h
    obtain ⟨k, hk, _⟩ := h
    omega
  | succ f ih =>
    intro n acc h
    obtain ⟨k, hkf, hk⟩ := h
    by_cases hstop : hAt n ≤ acc + 200
    · exact ⟨acc + 200, by simp [scrollLoop, hstop]⟩
    · have hk0 : k ≠ 0 := by
        rintro rfl
        have : hAt n ≤ acc + 200 := by simpa using hk
        exact hstop this
      obtain ⟨k0, rfl⟩ : ∃ k0, k = k0 + 1 := ⟨k - 1, by omega⟩
      obtain ⟨total, ht⟩ := ih (n + 1) (acc + 200)
        ⟨k0, by omega, by
          have hx := hk
          rw [show n + (k0 + 1) = n + 1 + k0 by omega] at hx
          omega⟩
      exact ⟨total, by simp [scrollLoop, hstop, ht]⟩

/-- Claim C9: the scroll loop reads the live scroll height at each tick and
stops exactly when the accumulated scrolled distance (a fixed 200-pixel
delta per tick) reaches or exceeds the height just read: whenever the page's
scroll height is bounded by some B, the loop terminates, and any returned
total is the accumulated distance of the first tick whose live height it
reached. -/
theorem C9_scroll_termination (hAt : ℕ → ℕ) (B : ℕ)
    (hbound : ∀ n, hAt n ≤ B) :
    (∃ fuel total, scrollLoop hAt fuel 0 0 = some total) ∧
    (∀ fuel total, scrollLoop hAt fuel 0 0 = some total →
      ∃ n, total = 200 * (n + 1) ∧ hAt n ≤ total ∧
        ∀ m < n, ¬ (hAt m ≤ 200 * (m + 1))) := by
  constructor
  · obtain ⟨total, ht⟩ := scrollLoop_term hAt (B / 200 + 1) 0 0
      ⟨B / 200, by omega, by
        have h1 := hbound (0 + B / 200)
        omega⟩
    exact ⟨B / 200 + 1, total, ht⟩
  · intro fuel total h
    obtain ⟨k, h1, h2, h3⟩ := scrollLoop_sound hAt fuel 0 0 total h
    refine ⟨k, by omega, by simpa using h2, ?_⟩
    intro m hm
    have := h3 m hm
    simpa using this

/-- Witness for C9 on a page of constant scroll height 1000: the loop
terminates. -/
theorem C9_scroll_witness :
    ∃ fuel total, scrollLoop (fun _ => 1000) fuel 0 0 = some total :=
  (C9_scroll_termination (fun _ => 1000) 1000 (fun _ => le_refl 1000)).1

/-- When no clip in the list is degenerate, a successful run persists
exactly one crop per clip. -/
theorem runClips_ok_length (W H : ℤ) :
    ∀ (clips out : List Clip),
      (∀ c ∈ clips, ¬ (c.height ≤ 0 ∨ c.width ≤ 0)) →
      runClips W H clips = Except.ok out → out.length = clips.length := by
  intro clips
  induction clips with
  | nil =>
    intro out _ h
    simp only [runClips] at h
    rw [← Except.ok.inj h]
  | cons c rest ih =>
    intro out hgood h
    have hc := hgood c (List.mem_cons_self c rest)
    rw [runClips, if_neg hc] at h
    by_cases hex : extractOk W H c = true
    · rw [if_pos hex] at h
      cases hr : runClips W H rest with
      | ok out0 =>
        rw [hr] at h
        simp only [Except.map] at h
        have hout : c :: out0 = out := Except.ok.inj h
        have hlen := ih out0
          (fun x hx => hgood x (List.mem_cons_of_mem _ hx)) hr
        rw [← hout]
        simp [hlen]
      | error e =>
        rw [hr] at h
        simp [Except.map] at h
    · rw [if_neg hex] at h
      simp at h

/-- Counterexample to claim C1 as stated: on a degenerate input section of
height 1/4 the slicer skips the section (no crop is persisted) yet still
reports a count of 1, so the reported count exceeds the number of crops
persisted and the skipped section is counted. -/
theorem C1_count_counterexample :
    takeScreenshots 1280 2000 [⟨0, 1 / 4⟩] = Except.ok ([], 1) ∧
    ([] : List Clip).length ≠ 1 :=
  ⟨rfl, by decide⟩

/-- Claim C1 amended: for every successful run of the slicer, the count
reported is the number of input sections — unconditionally, so a section
skipped as degenerate is still counted; additionally, whenever no input
section is degenerate (in particular for every detector-produced input,
whose clip heights are at least 50 by C10), the reported count also equals
the number of crops actually persisted. -/
theorem C1_count_amended (W H : ℤ) (sections : List SectionOut)
    (crops : List Clip) (n : ℕ)
    (hrun : takeScreenshots W H sections = Except.ok (crops, n)) :
    n = sections.length ∧
    ((∀ s ∈ sections, 0 < (makeClip s).height) → crops.length = n) := by
  by_cases hlen : sections.length = 0
  · rw [takeScreenshots, if_pos hlen] at hrun
    have h2 := Except.ok.inj hrun
    have hcrops : crops = [] := (congrArg Prod.fst h2).symm
    have hn : n = 0 := (congrArg Prod.snd h2).symm
    subst hcrops
    subst hn
    exact ⟨hlen.symm, fun _ => rfl⟩
  · rw [takeScreenshots, if_neg hlen] at hrun
    cases hr : runClips W H (sections.map makeClip) with
    | ok out =>
      rw [hr] at hrun
      simp only [Except.map] at hrun
      have h2 := Except.ok.inj hrun
      have hcrops : out = crops := congrArg Prod.fst h2
      have hn : sections.length = n := congrArg Prod.snd h2
      refine ⟨hn.symm, ?_⟩
      intro hpos
      have hgood : ∀ c ∈ sections.map makeClip, ¬ (c.height ≤ 0 ∨ c.width ≤ 0) := by
        intro c hcm
        rcases List.mem_map.mp hcm with ⟨s, hsm, rfl⟩
        have h1 := hpos s hsm
        have h2w : (makeClip s).width = 1280 := rfl
        omega
      have hlen2 := runClips_ok_length W H (sections.map makeClip) out hgood hr
      rw [← hcrops, hlen2]
      simpa using hn
    | error e =>
      rw [hr] at hrun
      simp [Except.map] at hrun

/-- Witness for C1: on the degenerate single-section run of
`C1_count_amended` the reported count still equals the input count even
though the section is skipped, and on a single well-formed section of
height 100 the run reports 1 with exactly 1 crop persisted. -/
theorem C1_count_witness :
    ((1 : ℕ) = [(⟨0, 1 / 4⟩ : SectionOut)].length) ∧
    ((1 : ℕ) = [(⟨0, 100⟩ : SectionOut)].length ∧
      [(⟨0, 0, 1280, 100⟩ : Clip)].length = 1) :=
  ⟨(C1_count_amended 1280 2000 [⟨0, 1 / 4⟩] [] 1 (by rfl)).1,
    (C1_count_amended 1280 2000 [⟨0, 100⟩] [⟨0, 0, 1280, 100⟩] 1 rfl).1,
    (C1_count_amended 1280 2000 [⟨0, 100⟩] [⟨0, 0, 1280, 100⟩] 1 rfl).2
      (by decide)⟩

/-- Counterexample to claim C2 as stated: the `route.js` clamp shrinks the
width before raising a negative left edge to 0, so for the section rectangle
`{x: -100, y: 0, width: 1400, height: 100}` against a 1280-wide raster the
clip submitted for extraction is `{left: 0, top: 0, width: 1380, height:
100}`, violating `left + width ≤ rasterWidth`. -/
theorem C2_bounds_counterexample :
    routeClip 1280 2000 ⟨-100, 0, 1400, 100⟩ = ⟨0, 0, 1380, 100⟩ ∧
    ¬ ((routeClip 1280 2000 ⟨-100, 0, 1400, 100⟩).left +
        (routeClip 1280 2000 ⟨-100, 0, 1400, 100⟩).width ≤ 1280) :=
  ⟨rfl, by decide⟩

/-- Claim C2 amended: for every section whose coordinates are non-negative,
the post-clamp rectangle satisfies all four bounds `0 ≤ left`, `0 ≤ top`,
`left + width ≤ rasterWidth`, `top + height ≤ rasterHeight`; only sections
with a negative coordinate can escape the clamp, because the overflow clamps
run before the negative edges are raised to zero. -/
theorem C2_bounds_amended (W H : ℤ) (s : SectionBox)
    (hx : 0 ≤ s.x) (hy : 0 ≤ s.y) :
    0 ≤ (routeClip W H s).left ∧ 0 ≤ (routeClip W H s).top ∧
    (routeClip W H s).left + (routeClip W H s).width ≤ W ∧
    (routeClip W H s).top + (routeClip W H s).height ≤ H := by
  have hl : 0 ≤ ⌊s.x⌋ := Int.le_floor.mpr (by exact_mod_cast hx)
  have ht : 0 ≤ ⌊s.y⌋ := Int.le_floor.mpr (by exact_mod_cast hy)
  unfold routeClip clampClip floorClip
  dsimp only
  split_ifs with h1 h2 h3 h4 <;> dsimp only at * <;> omega

/-- Witness for C2 at a non-negative section overflowing both raster edges:
the clamped clip honors all four bounds. -/
theorem C2_bounds_witness :
    0 ≤ (routeClip 1280 2000 ⟨100, 50, 2000, 3000⟩).left ∧
    0 ≤ (routeClip 1280 2000 ⟨100, 50, 2000, 3000⟩).top ∧
    (routeClip 1280 2000 ⟨100, 50, 2000, 3000⟩).left +
      (routeClip 1280 2000 ⟨100, 50, 2000, 3000⟩).width ≤ 1280 ∧
    (routeClip 1280 2000 ⟨100, 50, 2000, 3000⟩).top +
      (routeClip 1280 2000 ⟨100, 50, 2000, 3000⟩).height ≤ 2000 :=
  C2_bounds_amended 1280 2000 ⟨100, 50, 2000, 3000⟩ (by decide) (by decide)

/-- Counterexample to claim C3 as stated: the drill-down variant's slicer
rounds rather than floors — at `y_start = 3/5` it produces clip top 1 while
flooring gives 0. -/
theorem C3_floor_counterexample :
    (makeClip ⟨3 / 5, 101⟩).top = 1 ∧ ⌊(3 / 5 : ℚ)⌋ = 0 ∧
    (makeClip ⟨3 / 5, 101⟩).top ≠ ⌊(3 / 5 : ℚ)⌋ := by
  refine ⟨by decide, by decide, by decide⟩

/-- Claim C3 amended: the `route.js` slicer does floor every coordinate to
integer pixel bounds before clamping and extraction (each integer bound c
satisfies `c ≤ v < c + 1` for its coordinate v, and the clamp is applied to
the floored clip); the drill-down variant's slicer instead uses the
constants `left = 0`, `width = 1280` and rounds `y_start` and
`y_end - y_start` to the nearest integer, half up. -/
theorem C3_floor_amended :
    (∀ (s : SectionBox),
      (((floorClip s).left : ℚ) ≤ s.x ∧ s.x < (floorClip s).left + 1) ∧
      (((floorClip s).top : ℚ) ≤ s.y ∧ s.y < (floorClip s).top + 1) ∧
      (((floorClip s).width : ℚ) ≤ s.width ∧
        s.width < (floorClip s).width + 1) ∧
      (((floorClip s).height : ℚ) ≤ s.height ∧
        s.height < (floorClip s).height + 1) ∧
      (∀ (W H : ℤ), routeClip W H s = clampClip W H (floorClip s))) ∧
    (∀ (t : SectionOut),
      (makeClip t).left = 0 ∧ (makeClip t).width = 1280 ∧
      (makeClip t).top = ⌊t.y_start + 1 / 2⌋ ∧
      (makeClip t).height = ⌊t.y_end - t.y_start + 1 / 2⌋) := by
  constructor
  · intro s
    exact ⟨⟨Int.floor_le _, Int.lt_floor_add_one _⟩,
      ⟨Int.floor_le _, Int.lt_floor_add_one _⟩,
      ⟨Int.floor_le _, Int.lt_floor_add_one _⟩,
      ⟨Int.floor_le _, Int.lt_floor_add_one _⟩,
      fun _ _ => rfl⟩
  · intro t
    exact ⟨rfl, rfl, rfl, rfl⟩
